import Mathlib

/-!
Verification development for the pico-thermostat SSD1306 display driver
(src/display.c and src/main.c).

The two C files are shallowly embedded below.  Machine integers are
modelled as `Nat` with explicit `% 256` where a value is stored into a
`uint8_t` lvalue or passed as a `uint8_t` parameter; the `int` lengths
that can go negative are modelled as `Int`.  An I2C bus transaction
(one call to `i2c_write_blocking`) is reified as an `I2CTx` record; a
function that performs several bus writes returns the list of
transactions in call order.  Reads of `buf[idx]` are modelled with
`List.getD _ idx 0`; an index past the end of the list corresponds to a
C out-of-bounds read (undefined behaviour) and is modelled as reading 0.
The destination buffer of `write_glyph` is obtained from `malloc`, whose
contents C leaves indeterminate, so the embedding takes the initial
contents of that buffer as an explicit `init` parameter.
-/

/-! ## Constants from display.c -/

def SET_COL_ADDR : Nat := 0x21
def SET_PAGE_ADDR : Nat := 0x22
def ADDR : Nat := 0x3C
def HEIGHT : Nat := 64
def WIDTH : Nat := 128
def PAGE_HEIGHT : Nat := 8

/-- display.c line 65: `GET_BIT(x, pos)` is `(x & (1UL << pos))`. -/
def GET_BIT (x pos : Nat) : Nat := x &&& (1 <<< pos)

/-- display.c line 64: `SET_BIT(x, pos, in)` is `(x |= ((unsigned)in << pos))`;
the macro itself computes `x | (in << pos)` in unsigned arithmetic, the
truncation to `uint8_t` happens when the result is stored back into the
`uint8_t` lvalue and is written explicitly (`% 256`) at each use site. -/
def SET_BIT (x pos inp : Nat) : Nat := x ||| (inp <<< pos)

/-- display.c lines 70-75: the glyph struct.  `width` and `height` are C
`int`s, used only with non-negative values; `buf` is the row-major bitmap. -/
structure glyph where
  width : Nat
  height : Nat
  buf : List Nat
deriving DecidableEq

/-! ## The I2C bus boundary -/

/-- One call to the external primitive `i2c_write_blocking(i2c_default,
addr, src, len, nostop)`: the bus transmits the first `len` bytes of
`src` to `addr`.  A negative `len` (possible through the `int`
arithmetic in `write_buffer_to`) transmits nothing. -/
structure I2CTx where
  addr : Nat
  data : List Nat
  nostop : Bool
deriving DecidableEq

def i2c_write_blocking (addr : Nat) (src : List Nat) (len : Int) : I2CTx :=
  ⟨addr, src.take len.toNat, false⟩

/-! ## Protocol layer, display.c -/

/-- display.c lines 125-132 (`write_buffer`): prepends the control byte
`0x00` (command) or `0x40` (data) to `buffer`, then calls
`i2c_write_blocking` with length `buffer_len` — not `buffer_len + 1`,
so the final byte of the combined buffer is never transmitted. -/
def write_buffer (buffer : List Nat) (buffer_len : Int) (command : Bool) : I2CTx :=
  i2c_write_blocking (ADDR ||| 0x00) ((if command then 0x00 else 0x40) :: buffer) buffer_len

/-- display.c lines 141-147 (`write_byte`): a two-byte message
`[0x80, byte]` (command) or `[0xC0, byte]` (data), length 2. -/
def write_byte (byte : Nat) (command : Bool) : I2CTx :=
  i2c_write_blocking (ADDR ||| 0x00) [if command then 0x80 else 0xC0, byte] 2

/-- display.c lines 154-157. -/
def send_cmd (cmd : Nat) : I2CTx := write_byte cmd true

/-- display.c lines 165-168. -/
def write_data_buffer (buffer : List Nat) (buffer_len : Int) : I2CTx :=
  write_buffer buffer buffer_len false

/-- display.c lines 181-192 (`write_buffer_to`): six single-byte command
writes selecting the page and column ranges, then one data write whose
length argument is `(end_page - start_page) * (end_segment - start_segment)`
computed in C `int` arithmetic after the `uint8_t` parameters are
promoted.  The parameters are the already-truncated `uint8_t` values. -/
def write_buffer_to (buffer : List Nat) (start_page end_page start_segment end_segment : Nat) :
    List I2CTx :=
  [ send_cmd SET_PAGE_ADDR, send_cmd start_page, send_cmd end_page,
    send_cmd SET_COL_ADDR, send_cmd start_segment, send_cmd end_segment,
    write_data_buffer buffer
      (((end_page : Int) - (start_page : Int)) * ((end_segment : Int) - (start_segment : Int))) ]

/-! ## Bit-transposition engine, display.c `write_glyph` (lines 202-225) -/

/-- Source index of display.c line 217: `(j * 8) + (i * PAGE_HEIGHT) + k`. -/
def glyphSrcIdx (i j k : Nat) : Nat := j * 8 + i * 8 + k

/-- Destination index of display.c line 217: `(i * PAGE_HEIGHT) + (k * 8) + m`. -/
def glyphDstIdx (i k m : Nat) : Nat := i * 8 + k * 8 + m

/-- The loop body of display.c line 217:
`SET_BIT(buffer[(i*8)+(k*8)+m], 7u - m, GET_BIT(gly->buf[(j*8)+(i*8)+k], j))`,
with the store into the `uint8_t` element truncating to 8 bits. -/
def glyphStep (bits : List Nat) (b : List Nat) (i j k m : Nat) : List Nat :=
  b.set (glyphDstIdx i k m)
    (SET_BIT (b.getD (glyphDstIdx i k m) 0) (7 - m)
      (GET_BIT (bits.getD (glyphSrcIdx i j k) 0) j) % 256)

/-- The four nested loops of display.c lines 206-221, in source order
(`i` over pages, `j` over the 8 bit rows, `k` over glyph byte columns,
`m` over the 8 bit positions), folded over the malloc-ed buffer whose
initial contents are `init`. -/
def write_glyph_buffer (init : List Nat) (g : glyph) : List Nat :=
  (List.range (g.height / PAGE_HEIGHT)).foldl (fun b0 i =>
    (List.range PAGE_HEIGHT).foldl (fun b1 j =>
      (List.range (g.width / 8)).foldl (fun b2 k =>
        (List.range 8).foldl (fun b3 m => glyphStep g.buf b3 i j k m) b2) b1) b0) init

/-- display.c lines 202-225 (`write_glyph`): builds the transposed buffer
and hands it to `write_buffer_to` with the `uint16_t`/`int` arguments
`y/8`, `(height+y)/8`, `x`, `x+width` each truncated to the `uint8_t`
parameters.  The `dump_buffer` call only prints and performs no bus
activity.  Returns the bus transactions performed. -/
def write_glyph (init : List Nat) (g : glyph) (x y : Nat) : List I2CTx :=
  write_buffer_to (write_glyph_buffer init g)
    (y / PAGE_HEIGHT % 256) ((g.height + y) / PAGE_HEIGHT % 256)
    (x % 256) ((x + g.width) % 256)

/-! ## main.c -/

def OLED_ADDR : Nat := 0x3C
def OLED_WRITE_MODE : Nat := 0xFE
def OLED_WIDTH : Nat := 128
def OLED_HEIGHT : Nat := 64
def OLED_PAGE_HEIGHT : Nat := 8
def OLED_NUM_PAGES : Nat := OLED_HEIGHT / OLED_PAGE_HEIGHT

/-- main.c lines 65-71: the render_area struct (all fields `uint8_t`). -/
structure render_area where
  start_col : Nat
  end_col : Nat
  start_page : Nat
  end_page : Nat
deriving DecidableEq

/-- main.c lines 138-142 (`calc_render_area`): returns
`(end_col - start_col + 1) * (end_page - start_page + 1)` with the
`uint8_t` fields promoted to `int`, so the result can be negative;
the function performs no validation. -/
def calc_render_area (area : render_area) : Int :=
  ((area.end_col : Int) - (area.start_col : Int) + 1) *
    ((area.end_page : Int) - (area.start_page : Int) + 1)

/-- main.c lines 146-154 (`oled_send_cmd`): one write of `{0x80, cmd}`
to `OLED_ADDR & OLED_WRITE_MODE`. -/
def oled_send_cmd (cmd : Nat) : I2CTx :=
  i2c_write_blocking (OLED_ADDR &&& OLED_WRITE_MODE) [0x80, cmd] 2

/-- main.c lines 156-178 (`oled_send_buf`): copies `buf[0..buflen)` after
a leading `0x40` control byte and writes `buflen + 1` bytes. -/
def oled_send_buf (buf : List Nat) (buflen : Nat) : I2CTx :=
  i2c_write_blocking (OLED_ADDR &&& OLED_WRITE_MODE) (0x40 :: buf.take buflen)
    ((buflen : Int) + 1)

/-! ## Definitions following the wording of the specification

These two definitions are NOT translations of the source: they follow
the words of spec.md so that the behaviour of the code above can be
compared against the contract the spec states.  The C code has no error
values at all (all the functions involved return `void` or `int`). -/

/-- The error taxonomy named by spec.md section 7. -/
inductive DisplayError where
  | InvalidGlyphDimensions
  | InvalidRegion
deriving DecidableEq

/-- Follows the spec wording (section 4.1): `region_length(area)` fails
with `InvalidRegion` if end < start on either axis or either axis
exceeds the physical display bounds (128 columns, height/8 pages),
and otherwise is `(end_col - start_col + 1) * (end_page - start_page + 1)`. -/
def region_length_spec (area : render_area) : Except DisplayError Nat :=
  if area.end_col < area.start_col ∨ area.end_page < area.start_page ∨
      OLED_WIDTH ≤ area.end_col ∨ OLED_NUM_PAGES ≤ area.end_page then
    Except.error DisplayError.InvalidRegion
  else
    Except.ok ((area.end_col - area.start_col + 1) * (area.end_page - area.start_page + 1))

/-- Follows the spec wording (section 4.2 failure clause): the
transposition fails with `InvalidGlyphDimensions` unless width and
height are positive multiples of 8. -/
def transpose_req (g : glyph) : Except DisplayError Unit :=
  if 0 < g.width ∧ g.width % 8 = 0 ∧ 0 < g.height ∧ g.height % 8 = 0 then
    Except.ok ()
  else
    Except.error DisplayError.InvalidGlyphDimensions

/-- Number of set bits in a byte list (each byte viewed through its low
8 bit positions). -/
def setBitCount (l : List Nat) : Nat :=
  (l.map (fun x => ((List.range 8).filter x.testBit).length)).sum

/-! ## Helper material for the transposition proofs -/

/-- The loop body uncurried over an iteration quadruple `(i, j, k, m)`. -/
def glyphStepQ (bits : List Nat) (b : List Nat) (q : Nat × Nat × Nat × Nat) : List Nat :=
  glyphStep bits b q.1 q.2.1 q.2.2.1 q.2.2.2

/-- All iteration quadruples of the four nested loops of `write_glyph`,
in execution order. -/
def glyphIters (pages bcols : Nat) : List (Nat × Nat × Nat × Nat) :=
  (List.range pages).flatMap (fun i =>
    (List.range 8).flatMap (fun j =>
      (List.range bcols).flatMap (fun k =>
        (List.range 8).map (fun m => (i, j, k, m)))))

/-! ## Length preservation helpers -/

theorem foldl_length_inv {α : Type} (f : List Nat → α → List Nat)
    (hf : ∀ b a, (f b a).length = b.length) :
    ∀ (l : List α) (b : List Nat), (l.foldl f b).length = b.length := by
  intro l
  induction l with
  | nil => intro b; rfl
  | cons a l ih => intro b; rw [List.foldl_cons, ih, hf]

theorem length_glyphStep (bits b : List Nat) (i j k m : Nat) :
    (glyphStep bits b i j k m).length = b.length := by
  simp [glyphStep]

theorem write_glyph_buffer_length_eq (init : List Nat) (g : glyph) :
    (write_glyph_buffer init g).length = init.length := by
  unfold write_glyph_buffer
  exact foldl_length_inv _
    (fun b0 i => foldl_length_inv _
      (fun b1 j => foldl_length_inv _
        (fun b2 k => foldl_length_inv _
          (fun b3 m => length_glyphStep _ _ _ _ _ _) _ _) _ _) _ _) _ _

/-! ## Claim C2: send_data framing -/

/-- Claim C2: for every buffer of length n, send_data transmits one bus
write of n+1 bytes, control byte 0x40 followed by the payload unchanged.
The claim is a code bug in display.c: `write_buffer` passes `buffer_len`
(not `buffer_len + 1`) to `i2c_write_blocking`, so the transaction for
payload [0xFF, 0x00] carries only [0x40, 0xFF] and the final payload
byte is dropped.  The parallel implementation `oled_send_buf` in main.c
does transmit all `buflen + 1` bytes, [0x40, 0xFF, 0x00], as the claim
demands. -/
theorem send_data_framing_bug :
    (write_data_buffer [0xFF, 0x00] 2).data = [0x40, 0xFF] ∧
    (write_data_buffer [0xFF, 0x00] 2).data ≠ [0x40, 0xFF, 0x00] ∧
    (oled_send_buf [0xFF, 0x00] 2).data = [0x40, 0xFF, 0x00] := by
  decide

/-! ## Claim C4: all-zero glyph -/

/-- Claim C4: an all-zero glyph should transpose to an all-zero packed
buffer.  The code is buggy: `write_glyph` obtains the destination buffer
from `malloc` (line 204), never clears it, and only ever ORs bits into
it, so on an all-zero 8x8 glyph the produced buffer equals whatever the
malloc-ed memory previously held (here eight 0xFF bytes), which is not
the all-zero buffer the claim promises. -/
theorem zero_glyph_preserves_malloc_contents :
    write_glyph_buffer (List.replicate 8 0xFF) ⟨8, 8, List.replicate 8 0⟩ =
      List.replicate 8 0xFF ∧
    List.replicate 8 (0xFF : Nat) ≠ List.replicate 8 0 := by
  decide

/-! ## Claim C5: region_length contract -/

/-- Claim C5 counterexample: on the inverted area {start_col 5, end_col 0,
start_page 0, end_page 0} the spec contract demands failure with
InvalidRegion, but `calc_render_area` performs no validation and returns
the ordinary int value (0-5+1)*(0-0+1) = -4. -/
theorem calc_render_area_no_validation_cex :
    region_length_spec ⟨5, 0, 0, 0⟩ = Except.error DisplayError.InvalidRegion ∧
    calc_render_area ⟨5, 0, 0, 0⟩ = -4 := by
  exact ⟨rfl, by decide⟩

/-- Claim C5 amended: `calc_render_area` performs no validation and
returns `(end_col - start_col + 1) * (end_page - start_page + 1)` in int
arithmetic for every RenderArea (negative when an axis is inverted); on
every area satisfying the RenderArea invariant (start <= end on both
axes, end_col < 128 columns, end_page < height/8 = 8 pages) it returns
exactly the byte count demanded by the spec contract. -/
theorem calc_render_area_valid_agrees_spec (a : render_area)
    (h1 : a.start_col ≤ a.end_col) (h2 : a.start_page ≤ a.end_page)
    (h3 : a.end_col < OLED_WIDTH) (h4 : a.end_page < OLED_NUM_PAGES) :
    region_length_spec a =
      Except.ok ((a.end_col - a.start_col + 1) * (a.end_page - a.start_page + 1)) ∧
    calc_render_area a =
      (((a.end_col - a.start_col + 1) * (a.end_page - a.start_page + 1) : Nat) : Int) := by
  constructor
  · simp only [OLED_WIDTH, OLED_NUM_PAGES, OLED_HEIGHT, OLED_PAGE_HEIGHT] at h3 h4
    rw [region_length_spec,
      if_neg (by simp only [OLED_WIDTH, OLED_NUM_PAGES, OLED_HEIGHT, OLED_PAGE_HEIGHT]; omega)]
  · simp only [calc_render_area]
    push_cast [h1, h2]
    ring

/-- Witness for `calc_render_area_valid_agrees_spec` at the full-frame
area {0, 127, 0, 7}. -/
theorem calc_render_area_valid_agrees_spec_witness :
    (0 : Nat) ≤ 127 ∧ (0 : Nat) ≤ 7 ∧ (127 : Nat) < OLED_WIDTH ∧
      (7 : Nat) < OLED_NUM_PAGES ∧
    (region_length_spec ⟨0, 127, 0, 7⟩ =
        Except.ok ((127 - 0 + 1) * (7 - 0 + 1)) ∧
      calc_render_area ⟨0, 127, 0, 7⟩ =
        (((127 - 0 + 1) * (7 - 0 + 1) : Nat) : Int)) :=
  ⟨by decide, by decide, by decide, by decide,
    calc_render_area_valid_agrees_spec ⟨0, 127, 0, 7⟩
      (by decide) (by decide) (by decide) (by decide)⟩

/-! ## Claim C6: glyph dimension rejection -/

/-- Claim C6 counterexample: the spec demands that a 10x8 glyph be
rejected with InvalidGlyphDimensions before any bus activity, but
`write_glyph` performs no dimension check at all: on a 10x8 glyph it
proceeds (using the truncating division 10/8 = 1 as the byte-column
count) and performs 7 bus transactions. -/
theorem write_glyph_no_dimension_check_cex :
    transpose_req ⟨10, 8, List.replicate 10 0⟩ =
      Except.error DisplayError.InvalidGlyphDimensions ∧
    (write_glyph (List.replicate 10 0) ⟨10, 8, List.replicate 10 0⟩ 0 0).length = 7 ∧
    write_glyph (List.replicate 10 0) ⟨10, 8, List.replicate 10 0⟩ 0 0 ≠ [] := by
  exact ⟨rfl, by decide, by decide⟩

/-- Claim C6 amended: `write_glyph` performs no dimension validation and
has no error path (it returns void): for every glyph, every origin and
every initial buffer it unconditionally performs exactly 7 bus writes
(six command frames and one data write), computing the byte-column count
by the truncating division width/8. -/
theorem write_glyph_always_seven_writes (init : List Nat) (g : glyph) (x y : Nat) :
    (write_glyph init g x y).length = 7 :=
  rfl

/-! ## Claim C7: send_command framing -/

/-- Claim C7: for every command byte c, send_command(c) transmits exactly
the two-byte sequence [0x80, c] in one bus write.  Both implementations
(`send_cmd`/`write_byte` in display.c, shown through its data and
address, and `oled_send_cmd` in main.c) frame c this way. -/
theorem send_cmd_frames_exactly (c : Nat) :
    (send_cmd c).data = [0x80, c] ∧ (send_cmd c).addr = ADDR ∧
    (oled_send_cmd c).data = [0x80, c] :=
  ⟨rfl, rfl, rfl⟩

/-! ## Claim C10: the two command paths are identical -/

/-- Claim C10: for every command byte c, display.c send_cmd/write_byte
and main.c oled_send_cmd perform identical bus transactions: the same
payload [0x80, c], length 2, and the same effective address, since
ADDR | 0x00 = 0x3C = OLED_ADDR & OLED_WRITE_MODE. -/
theorem send_cmd_impls_equivalent (c : Nat) :
    send_cmd c = oled_send_cmd c ∧ ADDR ||| 0x00 = 0x3C ∧
    OLED_ADDR &&& OLED_WRITE_MODE = 0x3C :=
  ⟨rfl, by decide, by decide⟩

/-! ## Claim C3: length invariant -/

/-- Claim C3: for every glyph whose width and height are positive
multiples of 8, the packed buffer produced by the transposition has
length (height/8) * width (the size malloc-ed at display.c line 204,
here the length of the initial buffer), which equals width * height / 8. -/
theorem write_glyph_buffer_length (g : glyph) (init : List Nat)
    (hinit : init.length = g.height / PAGE_HEIGHT * g.width)
    (_hw : 8 ∣ g.width) (hh : 8 ∣ g.height) (_h0w : 0 < g.width) (_h0h : 0 < g.height) :
    (write_glyph_buffer init g).length = g.height / PAGE_HEIGHT * g.width ∧
    g.height / PAGE_HEIGHT * g.width = g.width * g.height / 8 := by
  constructor
  · rw [write_glyph_buffer_length_eq, hinit]
  · rcases hh with ⟨a, ha⟩
    simp only [PAGE_HEIGHT, ha]
    rw [Nat.mul_div_cancel_left a (by norm_num),
      show g.width * (8 * a) = 8 * (a * g.width) from by ring,
      Nat.mul_div_cancel_left _ (by norm_num)]

/-- Witness for `write_glyph_buffer_length` at an 8x8 glyph. -/
theorem write_glyph_buffer_length_witness :
    (List.replicate 8 (0 : Nat)).length = 8 / PAGE_HEIGHT * 8 ∧
    (8 : Nat) ∣ 8 ∧ (0 : Nat) < 8 ∧
    ((write_glyph_buffer (List.replicate 8 0) ⟨8, 8, List.replicate 8 0⟩).length =
        8 / PAGE_HEIGHT * 8 ∧
      (8 : Nat) / PAGE_HEIGHT * 8 = 8 * 8 / 8) :=
  ⟨by decide, ⟨1, rfl⟩, by decide,
    write_glyph_buffer_length ⟨8, 8, List.replicate 8 0⟩ (List.replicate 8 0)
      (by decide) ⟨1, rfl⟩ ⟨1, rfl⟩ (by decide) (by decide)⟩

/-! ## Claim C1: the transposition bit-placement law -/

set_option maxRecDepth 40000 in
/-- Claim C1 counterexample: a 64x8 glyph with exactly one set bit (bit 0
of its row-0 byte, i.e. source byte-row r = 0, byte-column k = 0, bit 0)
should, per the claim, produce a packed buffer with exactly one set bit.
Starting even from an all-zero destination buffer, the code instead sets
8 bits: destination byte m holds bit 7-m for every m in [0,8), because
the un-normalized positional weight GET_BIT(src, j) is ORed in for all
8 values of m and shifts the bit to position j + (7-m), not 7-m. -/
theorem write_glyph_single_pixel_cex :
    write_glyph_buffer (List.replicate 64 0) ⟨64, 8, 1 :: List.replicate 63 0⟩ =
      [128, 64, 32, 16, 8, 4, 2, 1] ++ List.replicate 56 0 ∧
    setBitCount (write_glyph_buffer (List.replicate 64 0) ⟨64, 8, 1 :: List.replicate 63 0⟩) = 8 ∧
    setBitCount (1 :: List.replicate 63 0) = 1 ∧ (8 : Nat) ≠ 1 := by
  refine ⟨by decide, by decide, by decide, by decide⟩

/-! ## Byte arithmetic helpers -/

theorem two_pow_eight : (256 : Nat) = 2 ^ 8 := by norm_num

theorem or_two_pow_high_mod (dst e : Nat) (hdst : dst < 256) (he : 8 ≤ e) :
    (dst ||| 2 ^ e) % 256 = dst := by
  rw [two_pow_eight]
  apply Nat.eq_of_testBit_eq
  intro b
  rw [Nat.testBit_mod_two_pow]
  by_cases hb : b < 8
  · have hne : e ≠ b := by omega
    simp [Nat.testBit_or, Nat.testBit_two_pow, hb, hne]
  · have hdb : dst.testBit b = false := by
      apply Nat.testBit_lt_two_pow
      calc dst < 2 ^ 8 := by omega
        _ ≤ 2 ^ b := Nat.pow_le_pow_right (by norm_num) (by omega)
    simp [hb, hdb]

theorem or_two_pow_low_mod (dst e : Nat) (hdst : dst < 256) (he : e < 8) :
    (dst ||| 2 ^ e) % 256 = dst ||| 2 ^ e := by
  apply Nat.mod_eq_of_lt
  rw [two_pow_eight]
  exact Nat.or_lt_two_pow (by omega) (Nat.pow_lt_pow_right (by norm_num) he)

/-! ## Claim C9: implicit semantics of the bit macros -/

/-- Claim C9: GET_BIT(x, pos) evaluates to the positional weight
x & (1 << pos) (0 or 2^pos, not a normalized 0/1), and SET_BIT ORs
(in << pos) into x, so the composition
SET_BIT(dst, 7-m, GET_BIT(src, j)) stores (after the uint8_t
truncation) the bit at position (7-m)+j of dst whenever bit j of src is
set — the bit being discarded entirely when (7-m)+j >= 8, i.e. when
j > m — rather than at bit position 7-m. -/
theorem bit_macro_semantics (dst src j m : Nat)
    (hdst : dst < 256) (_hj : j < 8) (hm : m < 8) :
    GET_BIT src j = (if src.testBit j then 2 ^ j else 0) ∧
    SET_BIT dst (7 - m) (GET_BIT src j) % 256 =
      (if src.testBit j ∧ j ≤ m then dst ||| 2 ^ ((7 - m) + j) else dst) := by
  have hget : GET_BIT src j = (if src.testBit j then 2 ^ j else 0) := by
    rw [GET_BIT, Nat.one_shiftLeft, Nat.and_two_pow]
    cases h : src.testBit j <;> simp [h]
  refine ⟨hget, ?_⟩
  rw [SET_BIT, hget]
  by_cases hbit : src.testBit j
  · rw [if_pos hbit]
    have hpow : (2 : Nat) ^ j <<< (7 - m) = 2 ^ ((7 - m) + j) := by
      rw [Nat.shiftLeft_eq, ← pow_add, Nat.add_comm]
    rw [hpow]
    by_cases hjm : j ≤ m
    · rw [if_pos ⟨hbit, hjm⟩]
      exact or_two_pow_low_mod dst _ hdst (by omega)
    · rw [if_neg (by tauto)]
      exact or_two_pow_high_mod dst _ hdst (by omega)
  · rw [if_neg hbit, if_neg (by tauto)]
    simp [Nat.zero_shiftLeft, Nat.mod_eq_of_lt hdst]

/-- Witness for `bit_macro_semantics` at dst = 5, src = 2, j = 1, m = 3. -/
theorem bit_macro_semantics_witness :
    (5 : Nat) < 256 ∧ (1 : Nat) < 8 ∧ (3 : Nat) < 8 ∧
    (GET_BIT 2 1 = (if (2 : Nat).testBit 1 then 2 ^ 1 else 0) ∧
      SET_BIT 5 (7 - 3) (GET_BIT 2 1) % 256 =
        (if (2 : Nat).testBit 1 ∧ 1 ≤ 3 then 5 ||| 2 ^ ((7 - 3) + 1) else 5)) :=
  ⟨by decide, by decide, by decide,
    bit_macro_semantics 5 2 1 3 (by decide) (by decide) (by decide)⟩

/-! ## Claim C8: the render area addressed by write_glyph -/

/-- Claim C8 counterexample: at x = 250 with an 8x8 glyph, the uint8_t
parameters of write_buffer_to truncate: the end-segment command byte
sent is (250 + 8) mod 256 = 2, not x + width = 258, and the data length
requested from write_data_buffer is (1 - 0) * (2 - 250) = -248, not the
packed length (8/8)*8 = 8. -/
theorem write_glyph_truncation_cex :
    write_glyph (List.replicate 8 0) ⟨8, 8, List.replicate 8 0⟩ 250 0 =
      write_buffer_to (write_glyph_buffer (List.replicate 8 0) ⟨8, 8, List.replicate 8 0⟩)
        0 1 250 2 ∧
    (250 + 8 : Nat) % 256 = 2 ∧ (2 : Nat) ≠ 250 + 8 ∧
    ((1 : Int) - (0 : Int)) * ((2 : Int) - (250 : Int)) = -248 ∧
    (-248 : Int) ≠ ((8 / 8 * 8 : Nat) : Int) := by
  refine ⟨rfl, by decide, by decide, by decide, by decide⟩

/-- Claim C8 amended: for every glyph with width and height positive
multiples of 8, page-aligned y, and x, y small enough that the uint8_t
parameters do not truncate (x + width < 256 and (height+y)/8 < 256),
write_glyph addresses the region {start_page y/8, end_page (height+y)/8,
start_col x, end_col x+width} (exclusive-style ends) and the data
payload length it requests, (end_page - start_page)*(end_col - start_col),
equals the packed buffer length (height/8)*width. -/
theorem write_glyph_render_area (init : List Nat) (g : glyph) (x y : Nat)
    (hy : 8 ∣ y) (hh : 8 ∣ g.height) (_hw : 8 ∣ g.width)
    (_h0w : 0 < g.width) (_h0h : 0 < g.height)
    (hx : x + g.width < 256) (hye : (g.height + y) / 8 < 256)
    (hinit : init.length = g.height / PAGE_HEIGHT * g.width) :
    write_glyph init g x y =
      write_buffer_to (write_glyph_buffer init g)
        (y / 8) ((g.height + y) / 8) x (x + g.width) ∧
    (((g.height + y) / 8 : Nat) : Int) - ((y / 8 : Nat) : Int) = ((g.height / 8 : Nat) : Int) ∧
    ((((g.height + y) / 8 : Nat) : Int) - ((y / 8 : Nat) : Int)) *
        (((x + g.width : Nat) : Int) - (x : Int)) =
      ((g.height / 8 * g.width : Nat) : Int) ∧
    (write_glyph_buffer init g).length = g.height / 8 * g.width := by
  obtain ⟨a, ha⟩ := hh
  obtain ⟨b, hb⟩ := hy
  have hdiv1 : y / 8 = b := by rw [hb, Nat.mul_div_cancel_left b (by norm_num)]
  have hdiv2 : (g.height + y) / 8 = a + b := by
    rw [ha, hb, show 8 * a + 8 * b = 8 * (a + b) from by ring,
      Nat.mul_div_cancel_left _ (by norm_num)]
  have hdiv3 : g.height / 8 = a := by rw [ha, Nat.mul_div_cancel_left a (by norm_num)]
  have e1 : y / 8 % 256 = y / 8 := Nat.mod_eq_of_lt (by omega)
  have e2 : (g.height + y) / 8 % 256 = (g.height + y) / 8 := Nat.mod_eq_of_lt hye
  have e3 : x % 256 = x := Nat.mod_eq_of_lt (by omega)
  have e4 : (x + g.width) % 256 = x + g.width := Nat.mod_eq_of_lt hx
  refine ⟨?_, ?_, ?_, ?_⟩
  · rw [write_glyph]
    simp only [PAGE_HEIGHT, e1, e2, e3, e4]
  · rw [hdiv1, hdiv2, hdiv3]
    push_cast
    ring
  · rw [hdiv1, hdiv2, hdiv3]
    push_cast
    ring
  · rw [write_glyph_buffer_length_eq, hinit]
    simp only [PAGE_HEIGHT]

/-- Witness for `write_glyph_render_area` at an 8x8 glyph placed at
(x, y) = (3, 8). -/
theorem write_glyph_render_area_witness :
    (8 : Nat) ∣ 8 ∧ (0 : Nat) < 8 ∧ (3 + 8 : Nat) < 256 ∧ ((8 + 8 : Nat) / 8) < 256 ∧
    (List.replicate 8 (0 : Nat)).length = 8 / PAGE_HEIGHT * 8 ∧
    (write_glyph (List.replicate 8 0) ⟨8, 8, List.replicate 8 0⟩ 3 8 =
        write_buffer_to (write_glyph_buffer (List.replicate 8 0) ⟨8, 8, List.replicate 8 0⟩)
          (8 / 8) ((8 + 8) / 8) 3 (3 + 8) ∧
      (((8 + 8) / 8 : Nat) : Int) - ((8 / 8 : Nat) : Int) = ((8 / 8 : Nat) : Int) ∧
      ((((8 + 8) / 8 : Nat) : Int) - ((8 / 8 : Nat) : Int)) *
          (((3 + 8 : Nat) : Int) - ((3 : Nat) : Int)) =
        ((8 / 8 * 8 : Nat) : Int) ∧
      (write_glyph_buffer (List.replicate 8 0) ⟨8, 8, List.replicate 8 0⟩).length =
        8 / 8 * 8) :=
  ⟨⟨1, rfl⟩, by decide, by decide, by decide, by decide,
    write_glyph_render_area (List.replicate 8 0) ⟨8, 8, List.replicate 8 0⟩ 3 8
      ⟨1, rfl⟩ ⟨1, rfl⟩ ⟨1, rfl⟩ (by decide) (by decide) (by decide) (by decide) (by decide)⟩

/-! ## Flattening the four nested loops of write_glyph -/

theorem foldl_flatMap {α β γ : Type} (l : List α) (f : α → List β) (g : γ → β → γ)
    (init : γ) :
    (l.flatMap f).foldl g init = l.foldl (fun c a => (f a).foldl g c) init := by
  induction l generalizing init with
  | nil => rfl
  | cons a l ih => simp [List.flatMap_cons, List.foldl_append, ih]

theorem write_glyph_buffer_eq_foldl (init : List Nat) (g : glyph) :
    write_glyph_buffer init g =
      (glyphIters (g.height / PAGE_HEIGHT) (g.width / 8)).foldl (glyphStepQ g.buf) init := by
  rw [write_glyph_buffer, glyphIters]
  simp only [foldl_flatMap, List.foldl_map, glyphStepQ, PAGE_HEIGHT]

theorem mem_glyphIters (pages bcols : Nat) (q : Nat × Nat × Nat × Nat) :
    q ∈ glyphIters pages bcols ↔
      q.1 < pages ∧ q.2.1 < 8 ∧ q.2.2.1 < bcols ∧ q.2.2.2 < 8 := by
  obtain ⟨i, j, k, m⟩ := q
  simp only [glyphIters, List.mem_flatMap, List.mem_map, List.mem_range]
  constructor
  · rintro ⟨i1, hi1, j1, hj1, k1, hk1, m1, hm1, heq⟩
    cases heq
    exact ⟨hi1, hj1, hk1, hm1⟩
  · rintro ⟨hi, hj, hk, hm⟩
    exact ⟨i, hi, j, hj, k, hk, ⟨m, hm, rfl⟩⟩

theorem glyphDstIdx_lt_of (i k m pages w : Nat)
    (hi : i < pages) (hk : k < w / 8) (hm : m < 8) :
    glyphDstIdx i k m < pages * w := by
  have D : w / 8 * 8 ≤ w := Nat.div_mul_le_self w 8
  have hw8 : 8 ≤ w := by omega
  have B : i * w + w ≤ pages * w := by
    have h := Nat.mul_le_mul_right w (show i + 1 ≤ pages from hi)
    rw [Nat.succ_mul] at h
    exact h
  have C : i * 8 ≤ i * w := Nat.mul_le_mul_left i hw8
  rw [glyphDstIdx]
  omega

theorem glyphStep_getD_testBit (bits b : List Nat) (i j k m d β : Nat)
    (hb : ∀ a ∈ b, a < 256) (hd : glyphDstIdx i k m < b.length) (hβ : β < 8) :
    ((glyphStep bits b i j k m).getD d 0).testBit β ↔
      ((b.getD d 0).testBit β ∨
        (glyphDstIdx i k m = d ∧ j + (7 - m) = β ∧
          (bits.getD (glyphSrcIdx i j k) 0).testBit j)) := by
  by_cases hdd : glyphDstIdx i k m = d
  · subst hdd
    have hget : (glyphStep bits b i j k m).getD (glyphDstIdx i k m) 0 =
        SET_BIT (b.getD (glyphDstIdx i k m) 0) (7 - m)
          (GET_BIT (bits.getD (glyphSrcIdx i j k) 0) j) % 256 := by
      rw [glyphStep, List.getD_eq_getElem?_getD, List.getElem?_set_self hd]
      rfl
    rw [hget]
    have hlt : b.getD (glyphDstIdx i k m) 0 < 256 := by
      apply hb
      rw [List.getD_eq_getElem?_getD, List.getElem?_eq_getElem hd]
      exact List.getElem_mem hd
    rw [SET_BIT, GET_BIT, Nat.one_shiftLeft, two_pow_eight, Nat.testBit_mod_two_pow]
    simp only [hβ, decide_True, Bool.true_and, Nat.testBit_or, Nat.testBit_shiftLeft,
      Nat.testBit_and, Nat.testBit_two_pow, Bool.or_eq_true, Bool.and_eq_true,
      decide_eq_true_eq, ge_iff_le]
    constructor
    · rintro (h | ⟨hge, hsb, hje⟩)
      · exact Or.inl h
      · right
        rw [← hje] at hsb
        exact ⟨trivial, by omega, hsb⟩
    · rintro (h | ⟨-, hjβ, hsb⟩)
      · exact Or.inl h
      · right
        refine ⟨by omega, ?_, by omega⟩
        rw [show β - (7 - m) = j from by omega]
        exact hsb
  · have hgetne : (glyphStep bits b i j k m).getD d 0 = b.getD d 0 := by
      rw [glyphStep, List.getD_eq_getElem?_getD, List.getElem?_set_ne hdd,
        ← List.getD_eq_getElem?_getD]
    rw [hgetne]
    simp [hdd]

theorem foldl_glyphStepQ_testBit (bits : List Nat) :
    ∀ (Q : List (Nat × Nat × Nat × Nat)) (b : List Nat),
      (∀ a ∈ b, a < 256) →
      (∀ q ∈ Q, glyphDstIdx q.1 q.2.2.1 q.2.2.2 < b.length) →
      ∀ d β, β < 8 →
      (((Q.foldl (glyphStepQ bits) b).getD d 0).testBit β ↔
        ((b.getD d 0).testBit β ∨
          ∃ q ∈ Q, glyphDstIdx q.1 q.2.2.1 q.2.2.2 = d ∧
            q.2.1 + (7 - q.2.2.2) = β ∧
            (bits.getD (glyphSrcIdx q.1 q.2.1 q.2.2.1) 0).testBit q.2.1)) := by
  intro Q
  induction Q with
  | nil =>
    intro b hb hq d β hβ
    simp
  | cons q Q ih =>
    intro b hb hq d β hβ
    rw [List.foldl_cons]
    have hb' : ∀ a ∈ glyphStepQ bits b q, a < 256 := by
      intro a ha
      rw [glyphStepQ, glyphStep] at ha
      rcases List.mem_or_eq_of_mem_set ha with h | h
      · exact hb a h
      · rw [h]
        exact Nat.mod_lt _ (by norm_num)
    have hlen : (glyphStepQ bits b q).length = b.length := by
      rw [glyphStepQ]
      exact length_glyphStep bits b q.1 q.2.1 q.2.2.1 q.2.2.2
    have hq' : ∀ p ∈ Q, glyphDstIdx p.1 p.2.2.1 p.2.2.2 < (glyphStepQ bits b q).length := by
      intro p hp
      rw [hlen]
      exact hq p (List.mem_cons_of_mem q hp)
    rw [ih (glyphStepQ bits b q) hb' hq' d β hβ, glyphStepQ,
      glyphStep_getD_testBit bits b q.1 q.2.1 q.2.2.1 q.2.2.2 d β hb
        (hq q (List.mem_cons_self q Q)) hβ]
    constructor
    · rintro ((hB | hC) | ⟨p, hp, hP⟩)
      · exact Or.inl hB
      · exact Or.inr ⟨q, List.mem_cons_self q Q, hC⟩
      · exact Or.inr ⟨p, List.mem_cons_of_mem q hp, hP⟩
    · rintro (hB | ⟨p, hp, hP⟩)
      · exact Or.inl (Or.inl hB)
      · rcases List.mem_cons.mp hp with rfl | hp'
        · exact Or.inl (Or.inr hP)
        · exact Or.inr ⟨p, hp', hP⟩

/-- Claim C1 amended: for every glyph with width and height positive
multiples of 8 (and in general), iteration (i, r, k, m) of write_glyph
reads the source byte bits[(r*8) + (i*8) + k] — r*8, which matches the
claimed (r * byte_cols) + (i*8) + k only when width = 64 — extracts bit
r as its positional weight GET_BIT, and ORs that weight shifted left by
7-m into the destination byte (i*8) + (k*8) + m, truncated to 8 bits.
Hence, starting from initial buffer contents init (malloc leaves them
indeterminate), bit position b of packed byte d is set iff it was set in
init or some iteration with (i*8)+(k*8)+m = d and r + (7-m) = b (forcing
r <= m; bits with r + (7-m) >= 8 are discarded) reads a source byte
whose bit r is set — so the bit lands at position r + (7-m), not 7-m,
and a single set source bit generally produces several set packed bits
(8 of them in the counterexample), not exactly one. -/
theorem write_glyph_buffer_bit_law (g : glyph) (init : List Nat)
    (hinit : init.length = g.height / PAGE_HEIGHT * g.width)
    (hbytes : ∀ a ∈ init, a < 256)
    (_hw : 8 ∣ g.width) (_hh : 8 ∣ g.height) (_h0w : 0 < g.width) (_h0h : 0 < g.height)
    (d β : Nat) (_hd : d < init.length) (hβ : β < 8) :
    ((write_glyph_buffer init g).getD d 0).testBit β ↔
      ((init.getD d 0).testBit β ∨
        ∃ i < g.height / 8, ∃ j < 8, ∃ k < g.width / 8, ∃ m < 8,
          glyphDstIdx i k m = d ∧ j + (7 - m) = β ∧
          (g.buf.getD (glyphSrcIdx i j k) 0).testBit j) := by
  rw [write_glyph_buffer_eq_foldl]
  have hq : ∀ q ∈ glyphIters (g.height / PAGE_HEIGHT) (g.width / 8),
      glyphDstIdx q.1 q.2.2.1 q.2.2.2 < init.length := by
    intro q hqm
    rw [mem_glyphIters] at hqm
    rw [hinit]
    exact glyphDstIdx_lt_of q.1 q.2.2.1 q.2.2.2 _ g.width hqm.1 hqm.2.2.1 hqm.2.2.2
  rw [foldl_glyphStepQ_testBit g.buf _ init hbytes hq d β hβ]
  constructor
  · rintro (h | ⟨q, hqm, h1, h2, h3⟩)
    · exact Or.inl h
    · rw [mem_glyphIters] at hqm
      right
      exact ⟨q.1, hqm.1, q.2.1, hqm.2.1, q.2.2.1, hqm.2.2.1, q.2.2.2, hqm.2.2.2, h1, h2, h3⟩
  · rintro (h | ⟨i, hi, j, hj, k, hk, m, hm, h1, h2, h3⟩)
    · exact Or.inl h
    · right
      refine ⟨(i, j, k, m), ?_, h1, h2, h3⟩
      rw [mem_glyphIters]
      exact ⟨hi, hj, hk, hm⟩

/-- Witness for `write_glyph_buffer_bit_law`: the single-pixel 64x8
glyph, zero initial buffer, destination byte 0, bit 7. -/
theorem write_glyph_buffer_bit_law_witness :
    (List.replicate 64 (0 : Nat)).length = 8 / PAGE_HEIGHT * 64 ∧
    (∀ a ∈ List.replicate 64 (0 : Nat), a < 256) ∧
    (8 : Nat) ∣ 64 ∧ (8 : Nat) ∣ 8 ∧ (0 : Nat) < 64 ∧ (0 : Nat) < 8 ∧
    (0 : Nat) < (List.replicate 64 (0 : Nat)).length ∧ (7 : Nat) < 8 ∧
    (((write_glyph_buffer (List.replicate 64 0) ⟨64, 8, 1 :: List.replicate 63 0⟩).getD 0 0).testBit 7 ↔
      (((List.replicate 64 (0 : Nat)).getD 0 0).testBit 7 ∨
        ∃ i < (8 : Nat) / 8, ∃ j < 8, ∃ k < (64 : Nat) / 8, ∃ m < 8,
          glyphDstIdx i k m = 0 ∧ j + (7 - m) = 7 ∧
          ((1 :: List.replicate 63 0 : List Nat).getD (glyphSrcIdx i j k) 0).testBit j)) :=
  ⟨by decide, by decide, ⟨8, rfl⟩, ⟨1, rfl⟩, by decide, by decide, by decide, by decide,
    write_glyph_buffer_bit_law ⟨64, 8, 1 :: List.replicate 63 0⟩ (List.replicate 64 0)
      (by decide) (by decide) ⟨8, rfl⟩ ⟨1, rfl⟩ (by decide) (by decide) 0 7
      (by decide) (by decide)⟩
